import Mathlib

/-
Verification of the B+ tree internal page implementation in
src/project/src/page/b_plus_tree_internal_page.cpp.

The page is embedded shallowly: the slot array is a total function
from slot index to a (key, child page id) pair, so that slots beyond
the recorded size model the stale bytes of the fixed size frame; keys
and page ids are modelled as Int, the concrete instance of the
template parameters.  C++ assert calls are modelled by returning
Option, none being the aborted execution.  Loops are translated one
iteration per recursive call; the extra Nat argument of each loop
function counts the remaining iterations of the C++ loop (it is the
literal loop bound, not an approximation).  The buffer pool manager
is modelled as a store of pages together with pin counters and an
event trace recording every FetchPage / UnpinPage call.
-/

namespace BPTree

/-- Pointwise update of a slot array at one index. -/
def upd (f : Nat → Int × Int) (i : Nat) (v : Int × Int) : Nat → Int × Int :=
  fun j => if j = i then v else f j

/-- Pointwise update of an Int-indexed Int map (pin counters). -/
def updI (f : Int → Int) (i v : Int) : Int → Int :=
  fun j => if j = i then v else f j

/-- An internal B+ tree page: backing slot array (total; slots at or past
size model stale frame bytes), current size, max size, page id, parent
page id.  Mirrors the header fields used by b_plus_tree_internal_page.cpp. -/
structure Page where
  arr : Nat → Int × Int
  size : Nat
  maxSize : Nat
  pageId : Int
  parentPageId : Int

/-- Pointwise update of the buffer pool page store. -/
def updP (f : Int → Page) (i : Int) (v : Page) : Int → Page :=
  fun j => if j = i then v else f j

/-- Three way comparison on Int, the concrete instance of KeyComparator. -/
def comparator (a b : Int) : Int :=
  if a < b then -1 else if b < a then 1 else 0

/-- KeyAt(index): assert(0 <= index && index < GetSize()); return array[index].first. -/
def KeyAt (p : Page) (index : Int) : Option Int :=
  if 0 ≤ index ∧ index < (p.size : Int) then some ((p.arr index.toNat).1) else none

/-- SetKeyAt(index, key): assert(0 <= index && index < GetSize()); array[index].first = key. -/
def SetKeyAt (p : Page) (index : Int) (key : Int) : Option Page :=
  if 0 ≤ index ∧ index < (p.size : Int) then
    some { p with arr := upd p.arr index.toNat (key, (p.arr index.toNat).2) }
  else none

/-- ValueAt(index): assert(0 <= index && index < GetSize()); return array[index].second. -/
def ValueAt (p : Page) (index : Int) : Option Int :=
  if 0 ≤ index ∧ index < (p.size : Int) then some ((p.arr index.toNat).2) else none

/-- The loop of ValueIndex: for (i = 0; i < GetSize(); ++i) if (array[i].second == value) return i.
The second Nat argument is the number of remaining iterations; when it reaches 0
the loop has run to i = GetSize() and falls through to return GetSize() (= i). -/
def valueIndexLoop (arr : Nat → Int × Int) (value : Int) : Nat → Nat → Nat
  | i, 0 => i
  | i, fuel + 1 => if (arr i).2 = value then i else valueIndexLoop arr value (i + 1) fuel

/-- ValueIndex(value): first index whose slot value equals the argument, GetSize() if none. -/
def ValueIndex (p : Page) (value : Int) : Nat :=
  valueIndexLoop p.arr value 0 p.size

/-- The binary search loop of Lookup: while (low < high && low + 1 != high).
The first Nat argument bounds the number of remaining iterations; every call
site passes a bound at least high - low, which suffices because the interval
shrinks strictly each iteration. -/
def lookupLoop (key : Int) (arr : Nat → Int × Int) : Nat → Nat → Nat → Int
  | 0, low, _ => (arr low).2
  | fuel + 1, low, high =>
    if low < high ∧ low + 1 ≠ high then
      if comparator key ((arr (low + (high - low) / 2)).1) < 0 then
        lookupLoop key arr fuel low (low + (high - low) / 2)
      else if comparator key ((arr (low + (high - low) / 2)).1) > 0 then
        lookupLoop key arr fuel (low + (high - low) / 2) high
      else (arr (low + (high - low) / 2)).2
    else (arr low).2

/-- Lookup(key, comparator): assert(GetSize() > 1); compare against array[1]
and array[GetSize()-1], otherwise binary search on [1, GetSize()-1]. -/
def Lookup (p : Page) (key : Int) : Option Int :=
  if 1 < p.size then
    if comparator key ((p.arr 1).1) < 0 then some ((p.arr 0).2)
    else if comparator key ((p.arr (p.size - 1)).1) ≥ 0 then some ((p.arr (p.size - 1)).2)
    else some (lookupLoop key p.arr p.size 1 (p.size - 1))
  else none

/-- PopulateNewRoot(old_value, new_key, new_value): assert(GetSize() == 1);
array[0].second = old_value; array[1] = {new_key, new_value}; IncreaseSize(1). -/
def PopulateNewRoot (p : Page) (old_value new_key new_value : Int) : Option Page :=
  if p.size = 1 then
    some { p with
           arr := upd (upd p.arr 0 ((p.arr 0).1, old_value)) 1 (new_key, new_value),
           size := p.size + 1 }
  else none

/-- The loop of InsertNodeAfter: for (i = GetSize(); i > 0; --i), checking
array[i-1].second == old_value; on a match write array[i] = {new_key, new_value}
and break (Bool result true means IncreaseSize(1) ran), else array[i] = array[i-1]. -/
def insertNodeLoop (old_value new_key new_value : Int) :
    (Nat → Int × Int) → Nat → (Nat → Int × Int) × Bool
  | arr, 0 => (arr, false)
  | arr, i + 1 =>
    if (arr i).2 = old_value then (upd arr (i + 1) (new_key, new_value), true)
    else insertNodeLoop old_value new_key new_value (upd arr (i + 1) (arr i)) i

/-- InsertNodeAfter(old_value, new_key, new_value): run the loop from
i = GetSize() downward, then return GetSize() after the loop. -/
def InsertNodeAfter (p : Page) (old_value new_key new_value : Int) : Page × Int :=
  let r := insertNodeLoop old_value new_key new_value p.arr p.size
  let q : Page := { p with arr := r.1, size := p.size + (if r.2 then 1 else 0) }
  (q, (q.size : Int))

/-- Copy loop shared by CopyHalfFrom and CopyAllFrom: fuel iterations of
array[i] = *items++ starting at destination index i and item index k. -/
def copyLoop (items : Nat → Int × Int) : (Nat → Int × Int) → Nat → Nat → Nat → (Nat → Int × Int)
  | arr, _, _, 0 => arr
  | arr, i, k, fuel + 1 => copyLoop items (upd arr i (items k)) (i + 1) (k + 1) fuel

/-- One buffer pool manager call observable from this translation unit. -/
inductive BPEvent where
  | fetch (pid : Int)
  | unpin (pid : Int) (dirty : Bool)
deriving DecidableEq

/-- The buffer pool: page store, pin counters, and the trace of calls. -/
structure BufferPool where
  pages : Int → Page
  pins : Int → Int
  events : List BPEvent

/-- FetchPage(pid): returns the pooled page, increments its pin count. -/
def fetchPage (w : BufferPool) (pid : Int) : Page × BufferPool :=
  (w.pages pid,
   { w with pins := updI w.pins pid (w.pins pid + 1),
            events := w.events ++ [BPEvent.fetch pid] })

/-- UnpinPage(pid, is_dirty): decrements the pin count. -/
def unpinPage (w : BufferPool) (pid : Int) (dirty : Bool) : BufferPool :=
  { w with pins := updI w.pins pid (w.pins pid - 1),
           events := w.events ++ [BPEvent.unpin pid dirty] }

/-- Writing a mutated page back into its pool frame (C++ mutates in place). -/
def setPage (w : BufferPool) (pid : Int) (pg : Page) : BufferPool :=
  { w with pages := updP w.pages pid pg }

/-- The loop of Remove: for (i = index; i < GetSize() - 1; ++i)
array[index] = array[index + 1].  The loop body is copied verbatim from the
source: it writes array[index] (not array[i]) on every iteration. -/
def removeLoop (index : Nat) : (Nat → Int × Int) → Nat → (Nat → Int × Int)
  | arr, 0 => arr
  | arr, fuel + 1 => removeLoop index (upd arr index (arr (index + 1))) fuel

/-- Remove(index): assert(0 <= index && index < GetSize()); run the loop
(GetSize() - 1 - index iterations); IncreaseSize(-1). -/
def Remove (p : Page) (index : Int) : Option Page :=
  if 0 ≤ index ∧ index < (p.size : Int) then
    some { p with
           arr := removeLoop index.toNat p.arr (p.size - 1 - index.toNat),
           size := p.size - 1 }
  else none

/-- RemoveAndReturnOnlyChild(): IncreaseSize(-1); assert(GetSize() == 1); return ValueAt(0). -/
def RemoveAndReturnOnlyChild (p : Page) : Option (Page × Int) :=
  if p.size - 1 = 1 then some ({ p with size := p.size - 1 }, (p.arr 0).2) else none

/-- CopyHalfFrom(items, size, bpm): assert(!IsLeafPage() && GetSize() == 1)
(this translation unit only ever builds internal pages, so IsLeafPage() is
false); copy items into array[0..size-1]; IncreaseSize(size).  The buffer
pool argument is unused by the source, hence returned unchanged. -/
def CopyHalfFrom (r : Page) (items : Nat → Int × Int) (sz : Nat) (w : BufferPool) :
    Option (Page × BufferPool) :=
  if r.size = 1 then
    some ({ r with arr := copyLoop items r.arr 0 0 sz, size := r.size + sz }, w)
  else none

/-- MoveHalfTo(recipient, bpm): half = GetSize()/2;
recipient->CopyHalfFrom(array + GetSize() - half, half, bpm); IncreaseSize(-half). -/
def MoveHalfTo (p r : Page) (w : BufferPool) : Option (Page × Page × BufferPool) :=
  match CopyHalfFrom r (fun t => p.arr (p.size - p.size / 2 + t)) (p.size / 2) w with
  | none => none
  | some q => some ({ p with size := p.size - p.size / 2 }, q.1, q.2)

/-- CopyAllFrom(items, size, bpm): assert(GetSize() + size < GetMaxSize());
for (i = GetSize(); i < size; ++i) array[i] = *items++; IncreaseSize(size).
The loop therefore runs size - GetSize() times (truncated at zero), exactly
as in the source.  The buffer pool argument is unused by the source. -/
def CopyAllFrom (r : Page) (items : Nat → Int × Int) (sz : Nat) (w : BufferPool) :
    Option (Page × BufferPool) :=
  if r.size + sz < r.maxSize then
    some ({ r with arr := copyLoop items r.arr r.size 0 (sz - r.size), size := r.size + sz }, w)
  else none

/-- MoveAllTo(recipient, index_in_parent, bpm):
recipient->CopyAllFrom(array + 1, GetSize() - 1, bpm); fetch the parent;
parent->Remove(index_in_parent); unpin the parent. -/
def MoveAllTo (p r : Page) (index_in_parent : Int) (w : BufferPool) :
    Option (Page × Page × BufferPool) :=
  match CopyAllFrom r (fun t => p.arr (1 + t)) (p.size - 1) w with
  | none => none
  | some q =>
    let parent := (fetchPage q.2 p.parentPageId).1
    let w1 := (fetchPage q.2 p.parentPageId).2
    match Remove parent index_in_parent with
    | none => none
    | some parent2 =>
      some (p, q.1, unpinPage (setPage w1 p.parentPageId parent2) parent2.pageId true)

/-- CopyLastFrom(pair, bpm): assert(GetSize() + 1 < GetMaxSize()); fetch the
parent; index = parent->ValueIndex(GetPageId()); key = parent->KeyAt(index+1);
array[GetSize()] = {key, pair.second}; IncreaseSize(1);
parent->SetKeyAt(index+1, pair.first); unpin the parent. -/
def CopyLastFrom (r : Page) (pair : Int × Int) (w : BufferPool) :
    Option (Page × BufferPool) :=
  if r.size + 1 < r.maxSize then
    let parent := (fetchPage w r.parentPageId).1
    let w1 := (fetchPage w r.parentPageId).2
    let index := ValueIndex parent r.pageId
    match KeyAt parent ((index : Int) + 1) with
    | none => none
    | some key =>
      let r2 : Page := { r with arr := upd r.arr r.size (key, pair.2), size := r.size + 1 }
      match SetKeyAt parent ((index : Int) + 1) pair.1 with
      | none => none
      | some parent2 =>
        some (r2, unpinPage (setPage w1 r.parentPageId parent2) parent2.pageId true)
  else none

/-- MoveFirstToEndOf(recipient, bpm): assert(GetSize() > 1); pair = array[1];
array[0] = array[1]; Remove(1); recipient->CopyLastFrom(pair, bpm). -/
def MoveFirstToEndOf (p r : Page) (w : BufferPool) : Option (Page × Page × BufferPool) :=
  if 1 < p.size then
    let pair := p.arr 1
    let p1 : Page := { p with arr := upd p.arr 0 (p.arr 1) }
    match Remove p1 1 with
    | none => none
    | some p2 =>
      match CopyLastFrom r pair w with
      | none => none
      | some q => some (p2, q.1, q.2)
  else none

/-- CopyFirstFrom(pair, parent_index, bpm): assert(GetSize() + 1 < GetMaxSize());
fetch the parent; key = parent->KeyAt(parent_index);
parent->SetKeyAt(parent_index, pair.first);
InsertNodeAfter(array[0].second, key, array[0].second);
array[0].second = pair.second; unpin the parent. -/
def CopyFirstFrom (r : Page) (pair : Int × Int) (parent_index : Int) (w : BufferPool) :
    Option (Page × BufferPool) :=
  if r.size + 1 < r.maxSize then
    let parent := (fetchPage w r.parentPageId).1
    let w1 := (fetchPage w r.parentPageId).2
    match KeyAt parent parent_index with
    | none => none
    | some key =>
      match SetKeyAt parent parent_index pair.1 with
      | none => none
      | some parent2 =>
        let r1 := (InsertNodeAfter r ((r.arr 0).2) key ((r.arr 0).2)).1
        let r2 : Page := { r1 with arr := upd r1.arr 0 ((r1.arr 0).1, pair.2) }
        some (r2, unpinPage (setPage w1 r.parentPageId parent2) parent2.pageId true)
  else none

/-- MoveLastToFrontOf(recipient, parent_index, bpm): assert(GetSize() > 1);
IncreaseSize(-1); pair = array[GetSize()]; recipient->CopyFirstFrom(pair, parent_index, bpm). -/
def MoveLastToFrontOf (p r : Page) (parent_index : Int) (w : BufferPool) :
    Option (Page × Page × BufferPool) :=
  if 1 < p.size then
    let p1 : Page := { p with size := p.size - 1 }
    let pair := p.arr (p.size - 1)
    match CopyFirstFrom r pair parent_index w with
    | none => none
    | some q => some (p1, q.1, q.2)
  else none

/-- The list of child page ids a page currently holds (slot values 0..size-1). -/
def childList (p : Page) : List Int :=
  (List.range p.size).map (fun i => (p.arr i).2)

/-- Pin discipline of one parent-fetching operation: the call trace grows by
exactly one FetchPage of the parent followed by exactly one UnpinPage of it,
and the parent pin count is back at its pre-call value. -/
def pinBalanced (w w2 : BufferPool) (pid : Int) : Prop :=
  w2.events = w.events ++ [BPEvent.fetch pid, BPEvent.unpin pid true] ∧
  w2.pins pid = w.pins pid

/-- A page used as the default content of pool frames no test touches. -/
def dummyPage : Page :=
  { arr := fun _ => (0, 0), size := 0, maxSize := 0, pageId := -1, parentPageId := -1 }

/-- The section 8 scenario page, step 0: a freshly initialised internal page
with max_size = 4 (3 real keys plus the sentinel), size 1. -/
def scenarioBase : Page :=
  { arr := fun _ => (0, 0), size := 1, maxSize := 4, pageId := 1, parentPageId := 0 }

/-- Scenario step 1: InsertNodeAfter(sentinel child 0, key 10, child 110). -/
def scenario1 : Page := (InsertNodeAfter scenarioBase 0 10 110).1

/-- Scenario step 2: InsertNodeAfter(child 110, key 20, child 120). -/
def scenario2 : Page := (InsertNodeAfter scenario1 110 20 120).1

/-- Scenario step 3: InsertNodeAfter(child 120, key 30, child 130).  The page
now holds keys 10, 20, 30 with children 0, 110, 120, 130. -/
def scenarioPage : Page := (InsertNodeAfter scenario2 120 30 130).1

/-- Concrete page exercising Remove and ValueIndex: four slots with
pairwise distinct children 10, 11, 12, 13. -/
def page3 : Page :=
  { arr := fun j =>
      if j = 0 then (0, 10) else if j = 1 then (1, 11)
      else if j = 2 then (2, 12) else if j = 3 then (3, 13) else (0, 0),
    size := 4, maxSize := 10, pageId := 5, parentPageId := 0 }

/-- Split source: page id 1, four slots; its upper half holds child page 77. -/
def src45 : Page :=
  { arr := fun j =>
      if j = 0 then (0, 100) else if j = 1 then (10, 101)
      else if j = 2 then (20, 77) else if j = 3 then (30, 103) else (0, 0),
    size := 4, maxSize := 10, pageId := 1, parentPageId := 0 }

/-- Split recipient: freshly initialised sibling, page id 2, size 1; its
backing array is the stale-frame marker pair (99, 99) everywhere. -/
def rec45 : Page :=
  { arr := fun _ => (99, 99), size := 1, maxSize := 10, pageId := 2, parentPageId := 0 }

/-- Child page 77: its parent-page-id field still names the split source (1). -/
def child77 : Page :=
  { arr := fun _ => (0, 0), size := 1, maxSize := 10, pageId := 77, parentPageId := 1 }

/-- Pool for the split scenario: frame 77 holds child77. -/
def w45 : BufferPool :=
  { pages := fun pid => if pid = 77 then child77 else dummyPage,
    pins := fun _ => 0, events := [] }

/-- Merge parent: page id 0, three slots, separators pointing at pages 1, 2, 3. -/
def parentC2 : Page :=
  { arr := fun j =>
      if j = 0 then (0, 1) else if j = 1 then (7, 2) else if j = 2 then (99, 3) else (0, 0),
    size := 3, maxSize := 10, pageId := 0, parentPageId := -1 }

/-- Merge recipient: page id 1, two slots, children 100 and 101; backing
array elsewhere is the stale-frame marker pair (88, 88). -/
def rec2 : Page :=
  { arr := fun j => if j = 0 then (0, 100) else if j = 1 then (5, 101) else (88, 88),
    size := 2, maxSize := 10, pageId := 1, parentPageId := 0 }

/-- Merge source (right sibling): page id 2, three slots, children 200, 201, 202. -/
def src2 : Page :=
  { arr := fun j =>
      if j = 0 then (0, 200) else if j = 1 then (7, 201) else if j = 2 then (9, 202) else (0, 0),
    size := 3, maxSize := 10, pageId := 2, parentPageId := 0 }

/-- Pool for the merge scenario: frame 0 holds the common parent. -/
def wC2 : BufferPool :=
  { pages := fun pid => if pid = 0 then parentC2 else dummyPage,
    pins := fun _ => 0, events := [] }

/-- Redistribution parent: page id 0, two slots; separator key 50 points at page 2. -/
def parent6 : Page :=
  { arr := fun j => if j = 0 then (0, 1) else if j = 1 then (50, 2) else (0, 0),
    size := 2, maxSize := 10, pageId := 0, parentPageId := -1 }

/-- Redistribution recipient (left sibling): page id 1, children 10 and 11. -/
def rec6 : Page :=
  { arr := fun j => if j = 0 then (0, 10) else if j = 1 then (5, 11) else (77, 77),
    size := 2, maxSize := 10, pageId := 1, parentPageId := 0 }

/-- Redistribution source (right sibling): page id 2, children 20, 21, 22
under keys sentinel, 60, 70. -/
def src6 : Page :=
  { arr := fun j =>
      if j = 0 then (0, 20) else if j = 1 then (60, 21) else if j = 2 then (70, 22) else (0, 0),
    size := 3, maxSize := 10, pageId := 2, parentPageId := 0 }

/-- Pool for the redistribution scenario: frames 0, 1, 2 hold the three pages. -/
def w6 : BufferPool :=
  { pages := fun pid =>
      if pid = 0 then parent6 else if pid = 1 then rec6 else if pid = 2 then src6 else dummyPage,
    pins := fun _ => 0, events := [] }

/-! Basic lemmas about the update helpers and the comparator. -/

theorem upd_same (f : Nat → Int × Int) (i : Nat) (v : Int × Int) : upd f i v i = v := by
  simp [upd]

theorem upd_ne (f : Nat → Int × Int) (i : Nat) (v : Int × Int) (j : Nat) (h : j ≠ i) :
    upd f i v j = f j := by
  simp [upd, h]

theorem comparator_neg_iff (a b : Int) : comparator a b < 0 ↔ a < b := by
  unfold comparator; split_ifs with h1 h2 <;> omega

theorem comparator_pos_iff (a b : Int) : comparator a b > 0 ↔ b < a := by
  unfold comparator; split_ifs with h1 h2 <;> omega

theorem comparator_nonneg_iff (a b : Int) : 0 ≤ comparator a b ↔ b ≤ a := by
  unfold comparator; split_ifs with h1 h2 <;> omega

/-! Specifications of the ValueIndex loop. -/

theorem valueIndexLoop_notfound (arr : Nat → Int × Int) (value : Int) :
    ∀ fuel i, (∀ j, i ≤ j → j < i + fuel → (arr j).2 ≠ value) →
      valueIndexLoop arr value i fuel = i + fuel := by
  intro fuel
  induction fuel with
  | zero => intro i _; rfl
  | succ n ih =>
    intro i h
    have hi : (arr i).2 ≠ value := h i (le_refl i) (by omega)
    simp only [valueIndexLoop, if_neg hi]
    have h2 := ih (i + 1) (fun j hj1 hj2 => h j (by omega) (by omega))
    rw [h2]; omega

theorem valueIndexLoop_found (arr : Nat → Int × Int) (value : Int) :
    ∀ fuel i m, i ≤ m → m < i + fuel → (arr m).2 = value →
      (∀ j, i ≤ j → j < m → (arr j).2 ≠ value) →
      valueIndexLoop arr value i fuel = m := by
  intro fuel
  induction fuel with
  | zero => intro i m h1 h2 _ _; exact absurd h2 (by omega)
  | succ n ih =>
    intro i m h1 h2 h3 h4
    by_cases him : i = m
    · subst him
      simp only [valueIndexLoop, if_pos h3]
    · have hi : (arr i).2 ≠ value := h4 i (le_refl i) (by omega)
      simp only [valueIndexLoop, if_neg hi]
      exact ih (i + 1) m (by omega) (by omega) h3 (fun j hj1 hj2 => h4 j (by omega) hj2)

/-- C10: ValueIndex(value) returns the smallest in-range index whose slot
holds the child value when one exists, and returns GetSize() (one past the
last slot) when none does: not-found is encoded as an index equal to the
current size, not as an error. -/
theorem valueIndex_spec (p : Page) (v : Int) :
    ((∃ i, i < p.size ∧ (p.arr i).2 = v) →
      ValueIndex p v < p.size ∧ (p.arr (ValueIndex p v)).2 = v ∧
      ∀ j, j < ValueIndex p v → (p.arr j).2 ≠ v) ∧
    ((∀ i, i < p.size → (p.arr i).2 ≠ v) → ValueIndex p v = p.size) := by
  constructor
  · rintro ⟨i, hi, hv⟩
    have hex : ∃ n, (p.arr n).2 = v := ⟨i, hv⟩
    have hm : (p.arr (Nat.find hex)).2 = v := Nat.find_spec hex
    have hmin : ∀ j, j < Nat.find hex → (p.arr j).2 ≠ v := fun j hj => Nat.find_min hex hj
    have hmle : Nat.find hex ≤ i := Nat.find_min' hex hv
    have heq : ValueIndex p v = Nat.find hex := by
      unfold ValueIndex
      exact valueIndexLoop_found p.arr v p.size 0 (Nat.find hex) (Nat.zero_le _) (by omega) hm
        (fun j _ hj => hmin j hj)
    rw [heq]
    exact ⟨by omega, hm, hmin⟩
  · intro h
    unfold ValueIndex
    have h2 := valueIndexLoop_notfound p.arr v p.size 0 (fun j _ hj => h j (by omega))
    simpa using h2

/-- C10 witness: on page3 the child 12 is found at its smallest index and
the absent child 999 yields GetSize(). -/
theorem valueIndex_spec_witness :
    ((∃ i, i < page3.size ∧ (page3.arr i).2 = 12) ∧
      (∀ i, i < page3.size → (page3.arr i).2 ≠ 999)) ∧
    ((ValueIndex page3 12 < page3.size ∧ (page3.arr (ValueIndex page3 12)).2 = 12 ∧
      ∀ j, j < ValueIndex page3 12 → (page3.arr j).2 ≠ 12) ∧
     ValueIndex page3 999 = page3.size) :=
  ⟨⟨⟨2, by decide, by decide⟩, by decide⟩,
   ⟨(valueIndex_spec page3 12).1 ⟨2, by decide, by decide⟩,
    (valueIndex_spec page3 999).2 (by decide)⟩⟩

/-- C8: every spec-named precondition violation is rejected by the
assertion-style check and only those: KeyAt, SetKeyAt and ValueAt abort
exactly when the index is outside [0, size); Lookup aborts exactly when
size <= 1; PopulateNewRoot aborts exactly when size != 1.  Under the stated
precondition each check passes (the error branch is unreachable). -/
theorem assert_checks (p : Page) (i key old_value new_key new_value : Int) :
    (KeyAt p i = none ↔ ¬(0 ≤ i ∧ i < (p.size : Int))) ∧
    (SetKeyAt p i key = none ↔ ¬(0 ≤ i ∧ i < (p.size : Int))) ∧
    (ValueAt p i = none ↔ ¬(0 ≤ i ∧ i < (p.size : Int))) ∧
    (Lookup p key = none ↔ p.size ≤ 1) ∧
    (PopulateNewRoot p old_value new_key new_value = none ↔ p.size ≠ 1) := by
  refine ⟨?_, ?_, ?_, ?_, ?_⟩
  · unfold KeyAt; split_ifs with h <;> simp [h]
  · unfold SetKeyAt; split_ifs with h <;> simp [h]
  · unfold ValueAt; split_ifs with h <;> simp [h]
  · unfold Lookup; split_ifs with h h1 h2 <;> simp <;> omega
  · unfold PopulateNewRoot; split_ifs with h <;> simp [h]

/-- C3 (code bug): Remove(1) on page3 (slots (0,10),(1,11),(2,12),(3,13))
only overwrites the slot at the removed index: the result keeps slot 2 equal
to the old slot 2 instead of shifting the old slot 3 into it, because the
loop body writes array[index] instead of array[i].  The first conjunct
evaluates the code; the second states that slot 2 of the result differs from
the old slot 3 the claim requires there. -/
theorem remove_no_shift_eval :
    (Remove page3 1).map (fun q => (q.size, q.arr 0, q.arr 1, q.arr 2)) =
      some (3, page3.arr 0, page3.arr 2, page3.arr 2) ∧
    (Remove page3 1).map (fun q => q.arr 2) ≠ some (page3.arr 3) := by
  constructor <;> decide

/-- C4 (code bug): after MoveHalfTo splits src45 into the fresh sibling
rec45 (page id 2), the moved child page 77 still records parent page id 1
(the split source): CopyHalfFrom never fetches any child nor writes a
parent id, so the moved children are not reparented. -/
theorem moveHalfTo_no_reparent_eval :
    (MoveHalfTo src45 rec45 w45).map
        (fun t => (t.2.1.arr 0, (t.2.2.pages 77).parentPageId, t.2.1.pageId)) =
      some ((20, 77), 1, 2) ∧ (1 : Int) ≠ 2 := by
  constructor <;> decide

/-- C5 (code bug): MoveHalfTo on a source of size 4 (half = 2) into a
freshly initialised recipient of size 1 leaves the source at size 2 with the
two moved slots in recipient slots 0 and 1, but the recipient size becomes
3, not 2: CopyHalfFrom runs IncreaseSize(half) on a page whose size is
already 1, so the never-written stale slot (99, 99) at index 2 is counted. -/
theorem moveHalfTo_recipient_size_eval :
    (MoveHalfTo src45 rec45 w45).map
        (fun t => (t.1.size, t.2.1.size, t.2.1.arr 0, t.2.1.arr 1, t.2.1.arr 2)) =
      some (2, 3, src45.arr 2, src45.arr 3, (99, 99)) ∧
    src45.size / 2 = 2 ∧ (3 : Nat) ≠ 2 := by
  refine ⟨by decide, by decide, by decide⟩

/-- C2 (code bug): MoveAllTo from src2 (size 3, slots 1..2 being (7,201)
and (9,202)) into rec2 (size 2) reports recipient size 4 but copies nothing:
CopyAllFrom's loop runs for i from GetSize() while i < size, which is empty
here, leaving the stale pair (88, 88) in recipient slots 2 and 3 where the
claim requires the source's slots 1..2. -/
theorem moveAllTo_partial_copy_eval :
    (MoveAllTo src2 rec2 1 wC2).map (fun t => (t.2.1.size, t.2.1.arr 2, t.2.1.arr 3)) =
      some (4, (88, 88), (88, 88)) ∧
    src2.arr 1 = (7, 201) ∧ src2.arr 2 = (9, 202) ∧
    ((88, 88) : Int × Int) ≠ (7, 201) := by
  refine ⟨by decide, by decide, by decide, by decide⟩

/-- C6 (code bug): MoveFirstToEndOf from src6 (children 20, 21, 22) to its
left sibling rec6 (children 10, 11) does not preserve the multiset of child
page ids across the two siblings: pair = array[1] moves child 21 to the
recipient while array[0] = array[1] also makes 21 the source's new sentinel
child, so the old sentinel child 20 is dropped and 21 is duplicated. -/
theorem moveFirstToEndOf_child_loss_eval :
    (MoveFirstToEndOf src6 rec6 w6).map (fun t => childList t.1 ++ childList t.2.1) =
      some [21, 22, 10, 11, 21] ∧
    childList src6 ++ childList rec6 = [20, 21, 22, 10, 11] ∧
    (20 : Int) ∉ [(21 : Int), 22, 10, 11, 21] ∧ (20 : Int) ∈ [(20 : Int), 21, 22, 10, 11] := by
  refine ⟨by decide, by decide, by decide, by decide⟩

/-! The binary search of Lookup. -/

theorem lookupLoop_succ (key : Int) (arr : Nat → Int × Int) (fuel low high : Nat) :
    lookupLoop key arr (fuel + 1) low high =
      if low < high ∧ low + 1 ≠ high then
        if comparator key ((arr (low + (high - low) / 2)).1) < 0 then
          lookupLoop key arr fuel low (low + (high - low) / 2)
        else if comparator key ((arr (low + (high - low) / 2)).1) > 0 then
          lookupLoop key arr fuel (low + (high - low) / 2) high
        else (arr (low + (high - low) / 2)).2
      else (arr low).2 := rfl

theorem lookupLoop_spec (key : Int) (arr : Nat → Int × Int) (n : Nat)
    (hsort : ∀ j, j < n → ∀ i, i < j → 1 ≤ i → (arr i).1 < (arr j).1) :
    ∀ fuel low high, 1 ≤ low → low < high → high < n →
      (arr low).1 ≤ key → key < (arr high).1 → high - low ≤ fuel →
      ∃ m, low ≤ m ∧ m < high ∧ (arr m).1 ≤ key ∧ key < (arr (m + 1)).1 ∧
        lookupLoop key arr fuel low high = (arr m).2 := by
  intro fuel
  induction fuel with
  | zero => intro low high h1 h2 h3 h4 h5 h6; exact absurd h6 (by omega)
  | succ fuel ih =>
    intro low high h1 h2 h3 h4 h5 h6
    by_cases hadj : low + 1 = high
    · refine ⟨low, le_refl low, h2, h4, ?_, ?_⟩
      · rw [hadj]; exact h5
      · rw [lookupLoop_succ, if_neg (fun hc => hc.2 hadj)]
    · have hge2 : low + 2 ≤ high := by omega
      have hlowmid : low < low + (high - low) / 2 := by omega
      have hmidhigh : low + (high - low) / 2 < high := by omega
      by_cases hc1 : comparator key ((arr (low + (high - low) / 2)).1) < 0
      · have hk : key < (arr (low + (high - low) / 2)).1 := (comparator_neg_iff _ _).1 hc1
        obtain ⟨m, hm1, hm2, hm3, hm4, hm5⟩ :=
          ih low (low + (high - low) / 2) h1 hlowmid (lt_trans hmidhigh h3) h4 hk (by omega)
        refine ⟨m, hm1, by omega, hm3, hm4, ?_⟩
        rw [lookupLoop_succ, if_pos ⟨h2, hadj⟩, if_pos hc1]
        exact hm5
      · by_cases hc2 : comparator key ((arr (low + (high - low) / 2)).1) > 0
        · have hk : (arr (low + (high - low) / 2)).1 < key := (comparator_pos_iff _ _).1 hc2
          obtain ⟨m, hm1, hm2, hm3, hm4, hm5⟩ :=
            ih (low + (high - low) / 2) high (by omega) hmidhigh h3 (le_of_lt hk) h5 (by omega)
          refine ⟨m, by omega, hm2, hm3, hm4, ?_⟩
          rw [lookupLoop_succ, if_pos ⟨h2, hadj⟩, if_neg hc1, if_pos hc2]
          exact hm5
        · have hkeq : key = (arr (low + (high - low) / 2)).1 :=
            le_antisymm (le_of_not_lt (fun hk => hc2 ((comparator_pos_iff _ _).2 hk)))
              (le_of_not_lt (fun hk => hc1 ((comparator_neg_iff _ _).2 hk)))
          have hnext : (arr (low + (high - low) / 2)).1 < (arr (low + (high - low) / 2 + 1)).1 :=
            hsort (low + (high - low) / 2 + 1) (by omega) (low + (high - low) / 2) (by omega)
              (by omega)
          refine ⟨low + (high - low) / 2, le_of_lt hlowmid, hmidhigh, le_of_eq hkeq.symm,
            by omega, ?_⟩
          rw [lookupLoop_succ, if_pos ⟨h2, hadj⟩, if_neg hc1, if_neg hc2]

/-- C1: on an internal page of size > 1 whose keys at indices >= 1 are
strictly increasing, Lookup(key) returns slot 0's child when
key < slot[1].key, the last slot's child when key >= slot[size-1].key, and
otherwise slot m's child for the largest index m with slot[m].key <= key. -/
theorem lookup_contract (p : Page) (key : Int)
    (hs : 1 < p.size)
    (hsort : ∀ j, j < p.size → ∀ i, i < j → 1 ≤ i → (p.arr i).1 < (p.arr j).1) :
    (key < (p.arr 1).1 → Lookup p key = some ((p.arr 0).2)) ∧
    ((p.arr (p.size - 1)).1 ≤ key → Lookup p key = some ((p.arr (p.size - 1)).2)) ∧
    ((p.arr 1).1 ≤ key → key < (p.arr (p.size - 1)).1 →
      ∃ m, 1 ≤ m ∧ m < p.size ∧ (p.arr m).1 ≤ key ∧
        (∀ j, m < j → j < p.size → key < (p.arr j).1) ∧
        Lookup p key = some ((p.arr m).2)) := by
  refine ⟨?_, ?_, ?_⟩
  · intro hk
    unfold Lookup
    rw [if_pos hs, if_pos ((comparator_neg_iff _ _).2 hk)]
  · intro hk
    have h1k : (p.arr 1).1 ≤ key := by
      rcases Nat.lt_or_ge p.size 3 with h | h
      · have hone : p.size - 1 = 1 := by omega
        rw [hone] at hk; exact hk
      · exact le_trans (le_of_lt (hsort (p.size - 1) (by omega) 1 (by omega) (by omega))) hk
    have hnc1 : ¬ comparator key ((p.arr 1).1) < 0 := by
      rw [comparator_neg_iff]; omega
    unfold Lookup
    rw [if_pos hs, if_neg hnc1, if_pos ((comparator_nonneg_iff _ _).2 hk)]
  · intro hk1 hk2
    have hnc1 : ¬ comparator key ((p.arr 1).1) < 0 := by
      rw [comparator_neg_iff]; omega
    have hnc2 : ¬ comparator key ((p.arr (p.size - 1)).1) ≥ 0 := by
      simp only [ge_iff_le, comparator_nonneg_iff]; omega
    rcases Nat.lt_or_ge p.size 3 with hsz | hsz
    · have hone : p.size - 1 = 1 := by omega
      rw [hone] at hk2
      exact absurd hk2 (not_lt.2 hk1)
    · obtain ⟨m, hm1, hm2, hm3, hm4, hm5⟩ :=
        lookupLoop_spec key p.arr p.size hsort p.size 1 (p.size - 1)
          (le_refl 1) (by omega) (by omega) hk1 hk2 (by omega)
      refine ⟨m, hm1, by omega, hm3, ?_, ?_⟩
      · intro j hj1 hj2
        rcases Nat.lt_or_ge (m + 1) j with h | h
        · have hmono : (p.arr (m + 1)).1 ≤ (p.arr j).1 :=
            le_of_lt (hsort j hj2 (m + 1) h (by omega))
          omega
        · have hje : j = m + 1 := by omega
          rw [hje]; exact hm4
      · unfold Lookup
        rw [if_pos hs, if_neg hnc1, if_neg hnc2, hm5]

/-- C1 witness: the section 8 scenario page (keys 10, 20, 30 inserted via
InsertNodeAfter, max size 4) satisfies the hypotheses, and Lookup(25)
returns 120, the child stored with key 20 (slot 2). -/
theorem lookup_contract_witness :
    (1 < scenarioPage.size ∧
      (∀ j, j < scenarioPage.size → ∀ i, i < j → 1 ≤ i →
        (scenarioPage.arr i).1 < (scenarioPage.arr j).1)) ∧
    ((25 < (scenarioPage.arr 1).1 → Lookup scenarioPage 25 = some ((scenarioPage.arr 0).2)) ∧
      ((scenarioPage.arr (scenarioPage.size - 1)).1 ≤ 25 →
        Lookup scenarioPage 25 = some ((scenarioPage.arr (scenarioPage.size - 1)).2)) ∧
      ((scenarioPage.arr 1).1 ≤ 25 → 25 < (scenarioPage.arr (scenarioPage.size - 1)).1 →
        ∃ m, 1 ≤ m ∧ m < scenarioPage.size ∧ (scenarioPage.arr m).1 ≤ 25 ∧
          (∀ j, m < j → j < scenarioPage.size → 25 < (scenarioPage.arr j).1) ∧
          Lookup scenarioPage 25 = some ((scenarioPage.arr m).2))) ∧
    Lookup scenarioPage 25 = some 120 ∧ scenarioPage.arr 2 = (20, 120) :=
  ⟨⟨by decide, by decide⟩, lookup_contract scenarioPage 25 (by decide) (by decide),
   by decide, by decide⟩

/-! The insertion loop of InsertNodeAfter. -/

theorem insertNodeLoop_spec (old_value new_key new_value : Int) :
    ∀ i (arr : Nat → Int × Int) (m : Nat), m < i →
      (arr m).2 = old_value →
      (∀ j, j < i → (arr j).2 = old_value → j = m) →
      (insertNodeLoop old_value new_key new_value arr i).2 = true ∧
      (∀ j, j ≤ m → (insertNodeLoop old_value new_key new_value arr i).1 j = arr j) ∧
      (insertNodeLoop old_value new_key new_value arr i).1 (m + 1) = (new_key, new_value) ∧
      (∀ j, m + 1 < j → j ≤ i →
        (insertNodeLoop old_value new_key new_value arr i).1 j = arr (j - 1)) ∧
      (∀ j, i < j → (insertNodeLoop old_value new_key new_value arr i).1 j = arr j) := by
  intro i
  induction i with
  | zero => intro arr m hm; exact absurd hm (Nat.not_lt_zero m)
  | succ t ih =>
    intro arr m hm hv huniq
    by_cases ht : (arr t).2 = old_value
    · have hmt : t = m := huniq t (Nat.lt_succ_self t) ht
      subst hmt
      simp only [insertNodeLoop, if_pos ht]
      refine ⟨trivial, ?_, upd_same _ _ _, ?_, ?_⟩
      · intro j hj; exact upd_ne _ _ _ _ (by omega)
      · intro j hj1 hj2; exact absurd hj2 (by omega)
      · intro j hj; exact upd_ne _ _ _ _ (by omega)
    · have hmt : m ≠ t := fun h => ht (by rw [← h]; exact hv)
      have hm2 : m < t := by omega
      simp only [insertNodeLoop, if_neg ht]
      have hv2 : ((upd arr (t + 1) (arr t)) m).2 = old_value := by
        rw [upd_ne _ _ _ _ (by omega)]; exact hv
      have huniq2 : ∀ j, j < t → ((upd arr (t + 1) (arr t)) j).2 = old_value → j = m := by
        intro j hj hjv
        rw [upd_ne _ _ _ _ (by omega)] at hjv
        exact huniq j (by omega) hjv
      obtain ⟨hb, hlow, hins, hshift, hhigh⟩ := ih (upd arr (t + 1) (arr t)) m hm2 hv2 huniq2
      refine ⟨hb, ?_, hins, ?_, ?_⟩
      · intro j hj
        rw [hlow j hj, upd_ne _ _ _ _ (by omega)]
      · intro j hj1 hj2
        rcases Nat.lt_or_ge j (t + 1) with hjt | hjt
        · rw [hshift j hj1 (by omega), upd_ne _ _ _ _ (by omega)]
        · have hje : j = t + 1 := by omega
          subst hje
          rw [hhigh (t + 1) (Nat.lt_succ_self t), upd_same]
          congr 1
      · intro j hj
        rw [hhigh j (by omega), upd_ne _ _ _ _ (by omega)]

/-- C7: on a page of size n below max size with exactly one slot m whose
child equals after_child, InsertNodeAfter shifts slots m+1..n-1 right by
one, writes (new_key, new_value) at slot m+1, leaves slots 0..m unchanged,
and returns the new size n + 1. -/
theorem insertNodeAfter_spec (p : Page) (old_value new_key new_value : Int) (m : Nat)
    (hmax : p.size < p.maxSize) (hm : m < p.size) (hv : (p.arr m).2 = old_value)
    (huniq : ∀ j, j < p.size → (p.arr j).2 = old_value → j = m) :
    (InsertNodeAfter p old_value new_key new_value).1.size = p.size + 1 ∧
    (InsertNodeAfter p old_value new_key new_value).2 = (p.size : Int) + 1 ∧
    (∀ j, j ≤ m → (InsertNodeAfter p old_value new_key new_value).1.arr j = p.arr j) ∧
    (InsertNodeAfter p old_value new_key new_value).1.arr (m + 1) = (new_key, new_value) ∧
    (∀ j, m + 1 < j → j ≤ p.size →
      (InsertNodeAfter p old_value new_key new_value).1.arr j = p.arr (j - 1)) := by
  obtain ⟨hb, hlow, hins, hshift, hhigh⟩ :=
    insertNodeLoop_spec old_value new_key new_value p.size p.arr m hm hv huniq
  refine ⟨?_, ?_, hlow, hins, hshift⟩
  · simp only [InsertNodeAfter, hb, if_true]
  · simp only [InsertNodeAfter, hb, if_true]
    push_cast
    ring

/-- C7 witness: inserting (30, 130) after child 120 into scenario2
(size 3, children 0, 110, 120 at slots 0..2, max size 4). -/
theorem insertNodeAfter_spec_witness :
    (scenario2.size < scenario2.maxSize ∧ 2 < scenario2.size ∧ (scenario2.arr 2).2 = 120 ∧
      (∀ j, j < scenario2.size → (scenario2.arr j).2 = 120 → j = 2)) ∧
    ((InsertNodeAfter scenario2 120 30 130).1.size = scenario2.size + 1 ∧
      (InsertNodeAfter scenario2 120 30 130).2 = (scenario2.size : Int) + 1 ∧
      (∀ j, j ≤ 2 → (InsertNodeAfter scenario2 120 30 130).1.arr j = scenario2.arr j) ∧
      (InsertNodeAfter scenario2 120 30 130).1.arr 3 = (30, 130) ∧
      (∀ j, 3 < j → j ≤ scenario2.size →
        (InsertNodeAfter scenario2 120 30 130).1.arr j = scenario2.arr (j - 1))) :=
  ⟨⟨by decide, by decide, by decide, by decide⟩,
   insertNodeAfter_spec scenario2 120 30 130 2 (by decide) (by decide) (by decide) (by decide)⟩

/-! Pin discipline of the parent-fetching operations. -/

theorem CopyAllFrom_world (r : Page) (items : Nat → Int × Int) (sz : Nat) (w : BufferPool)
    (q : Page × BufferPool) (h : CopyAllFrom r items sz w = some q) : q.2 = w := by
  unfold CopyAllFrom at h
  split_ifs at h
  injection h with h2
  rw [← h2]

theorem Remove_pageId (p : Page) (i : Int) (q : Page) (h : Remove p i = some q) :
    q.pageId = p.pageId := by
  unfold Remove at h
  split_ifs at h
  injection h with h2
  rw [← h2]

theorem SetKeyAt_pageId (p : Page) (i key : Int) (q : Page) (h : SetKeyAt p i key = some q) :
    q.pageId = p.pageId := by
  unfold SetKeyAt at h
  split_ifs at h
  injection h with h2
  rw [← h2]

theorem pinBalanced_roundtrip (w : BufferPool) (pid : Int) (pg : Page) :
    pinBalanced w (unpinPage (setPage (fetchPage w pid).2 pid pg) pid true) pid := by
  constructor
  · simp [unpinPage, setPage, fetchPage, List.append_assoc]
  · simp [unpinPage, setPage, fetchPage, updI]

/-- C9: each of MoveAllTo, CopyLastFrom and CopyFirstFrom, on every run
that returns, fetches the parent page exactly once and unpins it exactly
once (its call trace grows by exactly one FetchPage of the parent followed
by one UnpinPage of it), so the parent's pin count is back at its pre-call
value.  The hypotheses state that the pool frame of the parent id holds a
page carrying that id. -/
theorem fetch_unpin_balance (w : BufferPool) (p r : Page) (idx : Int) (pair : Int × Int)
    (pidx : Int)
    (hp : (w.pages p.parentPageId).pageId = p.parentPageId)
    (hr : (w.pages r.parentPageId).pageId = r.parentPageId) :
    (∀ p2 r2 w2, MoveAllTo p r idx w = some (p2, r2, w2) → pinBalanced w w2 p.parentPageId) ∧
    (∀ r2 w2, CopyLastFrom r pair w = some (r2, w2) → pinBalanced w w2 r.parentPageId) ∧
    (∀ r2 w2, CopyFirstFrom r pair pidx w = some (r2, w2) → pinBalanced w w2 r.parentPageId) := by
  refine ⟨?_, ?_, ?_⟩
  · intro p2 r2 w2 h
    simp only [MoveAllTo] at h
    split at h
    · exact Option.noConfusion h
    · rename_i q hca
      have hqw : q.2 = w := CopyAllFrom_world _ _ _ _ _ hca
      split at h
      · exact Option.noConfusion h
      · rename_i parent2 hrm
        have h5 := Remove_pageId _ _ _ hrm
        rw [hqw] at h5
        simp only [fetchPage] at h5
        rw [hp] at h5
        simp only [Option.some.injEq, Prod.mk.injEq] at h
        obtain ⟨h6, h7, h8⟩ := h
        subst h8
        rw [hqw, h5]
        exact pinBalanced_roundtrip w p.parentPageId parent2
  · intro r2 w2 h
    simp only [CopyLastFrom] at h
    split_ifs at h
    split at h
    · exact Option.noConfusion h
    · rename_i key hka
      split at h
      · exact Option.noConfusion h
      · rename_i parent2 hsk
        have h5 := SetKeyAt_pageId _ _ _ _ hsk
        simp only [fetchPage] at h5
        rw [hr] at h5
        simp only [Option.some.injEq, Prod.mk.injEq] at h
        obtain ⟨h6, h7⟩ := h
        subst h7
        rw [h5]
        exact pinBalanced_roundtrip w r.parentPageId parent2
  · intro r2 w2 h
    simp only [CopyFirstFrom] at h
    split_ifs at h
    split at h
    · exact Option.noConfusion h
    · rename_i key hka
      split at h
      · exact Option.noConfusion h
      · rename_i parent2 hsk
        have h5 := SetKeyAt_pageId _ _ _ _ hsk
        simp only [fetchPage] at h5
        rw [hr] at h5
        simp only [Option.some.injEq, Prod.mk.injEq] at h
        obtain ⟨h6, h7⟩ := h
        subst h7
        rw [h5]
        exact pinBalanced_roundtrip w r.parentPageId parent2

/-- C9 witness: the redistribution world w6, whose parent frame 0 carries
page id 0, instantiates the pin-balance theorem for src6 and rec6. -/
theorem fetch_unpin_balance_witness :
    ((w6.pages src6.parentPageId).pageId = src6.parentPageId ∧
      (w6.pages rec6.parentPageId).pageId = rec6.parentPageId) ∧
    ((∀ p2 r2 w2, MoveAllTo src6 rec6 1 w6 = some (p2, r2, w2) →
        pinBalanced w6 w2 src6.parentPageId) ∧
      (∀ r2 w2, CopyLastFrom rec6 (60, 21) w6 = some (r2, w2) →
        pinBalanced w6 w2 rec6.parentPageId) ∧
      (∀ r2 w2, CopyFirstFrom rec6 (60, 21) 1 w6 = some (r2, w2) →
        pinBalanced w6 w2 rec6.parentPageId)) :=
  ⟨⟨by decide, by decide⟩,
   fetch_unpin_balance w6 src6 rec6 1 (60, 21) 1 (by decide) (by decide)⟩

end BPTree
